import Mathlib

/-
Verification of the `mountain_model` repository.

The repository has two source files:

* `data_cleaner.py` : `clean_data(df, target_columns, sample_data, additional_prompt,
  model, chunk_size)` splits a pandas DataFrame into row chunks of `chunk_size` rows,
  builds a text prompt per chunk, sends it to an inference service (`ollama.chat`),
  parses the reply as CSV, coerces mismatched columns with `reindex`, and concatenates
  the per-chunk results with `pd.concat(..., ignore_index=True)`.
* `model_to_graph.py` : loads a keras model from the fixed path `model.keras` and
  renders it to the fixed path `model.png`, with no error handling.

The embedding below models pandas DataFrames as `Table` (a list of rows of optional
string cells, plus column labels and an integer row index), the external inference
service and the CSV parsing of the reply as oracles bundled in `Env`, and a Python
exception escaping to the caller as the `Except.error` case of the run outcome.
Observable effects (prompts handed to the service, `print` logging) are collected in
a `RunResult` record so that they remain visible even for runs that end in an
uncaught exception, exactly as Python's already-performed side effects do.
-/

namespace MountainModel

/-- A cell of a pandas DataFrame; `none` models NaN / a missing value. -/
abbrev Cell := Option String

/-- Shallow embedding of a pandas DataFrame: column labels, the row index labels,
and the rows (each row a list of cells positionally aligned with `cols`). -/
structure Table where
  cols : List String
  index : List Nat
  rows : List (List Cell)
deriving DecidableEq

/-- `pd.DataFrame()`: the empty frame with no columns, no index and no rows. -/
def emptyTable : Table := { cols := [], index := [], rows := [] }

/-- `df[i : j]` for integers `i ≤ j`: the positional row slice, keeping the column
labels and slicing the index labels alongside the rows. -/
def Table.slice (t : Table) (i j : Nat) : Table :=
  { cols := t.cols
    index := (t.index.drop i).take (j - i)
    rows := (t.rows.drop i).take (j - i) }

/-- Rendering of one cell in `to_csv`: NaN becomes the empty field. -/
def cellCsv : Cell → String
  | none => ""
  | some s => s

/-- `t.to_csv(index=False)`: the header line followed by one line per row, fields
joined by commas, every line terminated by a newline. (CSV quoting of separators
inside values is not modelled; no claim depends on it.) -/
def Table.toCsv (t : Table) : String :=
  String.intercalate "," t.cols ++ "\n"
    ++ String.join (t.rows.map (fun r => String.intercalate "," (r.map cellCsv) ++ "\n"))

/-- The f-string prompt built by `clean_data` for one chunk, with the chunk already
serialized to `data_text`. The interpolations are `','.join(target_columns)` (twice),
the two sample-data pieces, the chunk text and the additional instructions; the
literal text, including the indentation the Python source leaves inside the
triple-quoted string, is reproduced from the source. -/
def buildPrompt (target_columns : List String) (sample_data : Option Table)
    (additional_prompt : String) (data_text : String) : String :=
  let cols := String.intercalate "," target_columns
  "You are a data processing expert whose sole task is to convert completely inconsistent data into a clean CSV format. You will receive a set of unstructured data containing information about various entities. Your task is to extract the relevant information for the following columns and output it in a standardized CSV format.\n\n        **Important Rules:**\n\n        1.  **Limit to the specified columns:** Extract and use only the columns defined here: `"
    ++ cols
    ++ "`. Ignore all other information in the input data.\n        2.  **Clean CSV format:** The output MUST be a valid CSV format. This means:\n            * The first line contains the exact column names: `"
    ++ cols
    ++ "`, separated by commas.\n            * Each subsequent line represents a data record, with the values in the same order as the column names and separated by commas.\n            * There must be no extra spaces before or after the commas or the values.\n        3.  **No additional output:** Output ONLY the CSV data and the header row. Any other text, explanations, greetings, or additional information are strictly prohibited.\n        4.  **Handle inconsistencies:** Assume that the input data can be highly inconsistent. Information for a specific column may be missing, formatted differently, or appear in unexpected places. Do your best to identify and map the relevant information. If information for a required column is completely missing in a record, leave the corresponding field in the CSV output empty.\n        5.  **Direct output:** Start the output directly with the header row, followed by the data rows.\n\n        "
    ++ (match sample_data with
        | some _ => "**Example of desired output format (if provided):**"
        | none => "")
    ++ "\n        "
    ++ (match sample_data with
        | some s => s.toCsv
        | none => "")
    ++ "\n\n        **Inconsistent Input Data:**\n\n        "
    ++ data_text
    ++ "\n\n        "
    ++ additional_prompt
    ++ "\n        "

/-- Label-based cell lookup, the core of pandas column alignment: the cell of
`row` at the position of the first occurrence of label `c` in `cols`, or NaN when
`c` is not a label. -/
def lookupCell : List String → List Cell → String → Cell
  | [], _, _ => none
  | x :: xs, row, c => if x = c then row.getD 0 none else lookupCell xs (row.drop 1) c

/-- `t.reindex(columns=targets)`: the column axis becomes exactly `targets`; a target
column present in `t` keeps its values, an absent one is filled with NaN, and columns
of `t` outside `targets` are dropped. pandas raises
`ValueError: cannot reindex on an axis with duplicate labels` when the existing
column labels contain duplicates, modelled by the `Except.error` case. -/
def Table.reindexColumns (t : Table) (targets : List String) : Except String Table :=
  if t.cols.Nodup then
    .ok { cols := targets
          index := t.index
          rows := t.rows.map (fun r => targets.map (fun c => lookupCell t.cols r c)) }
  else
    .error "ValueError: cannot reindex on an axis with duplicate labels"

/-- Column labels of a `pd.concat` result in the general case: the labels of the
first frame, then the labels of later frames not seen before, in order of first
appearance (pandas outer alignment for frames with unique labels). -/
def addNewCols (acc : List String) (cs : List String) : List String :=
  cs.foldl (fun a c => if c ∈ a then a else a ++ [c]) acc

/-- Union of the column labels of a list of frames, in order of first appearance. -/
def outerCols (ts : List Table) : List String :=
  ts.foldl (fun a t => addNewCols a t.cols) []

/-- Realigning of one row from a frame with columns `cols` to the combined column
list `allCols` of a concatenation: absent columns are filled with NaN. -/
def alignRow (cols : List String) (allCols : List String) (r : List Cell) : List Cell :=
  allCols.map (fun c => lookupCell cols r c)

/-- `pd.concat(ts, ignore_index=True)` for a list of frames: rows are stacked in
order and the result index is the fresh range `0, 1, ...`. When all frames share
one column list (the only case `clean_data` reaches, since every appended chunk
has exactly the target columns) the labels are kept as they are; otherwise the
frames are outer-aligned on the union of their labels. -/
def concatIgnoreIndex (ts : List Table) : Table :=
  match ts with
  | [] => emptyTable
  | t :: rest =>
    if rest.all (fun u => u.cols = t.cols) then
      let rows := ((t :: rest).map Table.rows).flatten
      { cols := t.cols, index := List.range rows.length, rows := rows }
    else
      let cols := outerCols (t :: rest)
      let rows := ((t :: rest).map (fun u => u.rows.map (alignRow u.cols cols))).flatten
      { cols := cols, index := List.range rows.length, rows := rows }

/-- The ambient effectful world of `data_cleaner.py`: `chat model k prompt` is the
reply of `ollama.chat(model=model, messages=[...])` for the `k`-th service call of
the run (`Except.error` models a raised exception, e.g. the service being down),
and `read_csv s` is `pd.read_csv(pd.compat.StringIO(s))` on the reply text
(`Except.error` models any exception out of that expression, including the
`AttributeError` that `pd.compat.StringIO` itself raises on pandas releases that
no longer provide it, and parse errors on malformed replies). -/
structure Env where
  chat : String → Nat → String → Except String String
  read_csv : String → Except String Table

/-- The arguments of `clean_data`, with the source's parameter names. The Python
defaults are `sample_data=None`, `additional_prompt=""`, `model="deepseek-r1"`,
`chunk_size=200`. `chunk_size` is modelled as a natural number; `chunk_size=0`
makes Python's `range` raise, which `clean_data` reproduces below. -/
structure Args where
  df : Table
  target_columns : List String
  sample_data : Option Table
  additional_prompt : String
  model : String
  chunk_size : Nat

/-- Number of iterations of `for i in range(0, len(df), chunk_size)` for a positive
step, i.e. the number of chunks: `⌈len(df) / chunk_size⌉`. -/
def numChunks (a : Args) : Nat :=
  (a.df.rows.length + a.chunk_size - 1) / a.chunk_size

/-- The `k`-th chunk `df[i : i + chunk_size]` with `i = k * chunk_size`. -/
def chunkOf (a : Args) (k : Nat) : Table :=
  a.df.slice (k * a.chunk_size) (k * a.chunk_size + a.chunk_size)

/-- The prompt built for the `k`-th chunk. -/
def promptOf (a : Args) (k : Nat) : String :=
  buildPrompt a.target_columns a.sample_data a.additional_prompt (chunkOf a k).toCsv

/-- One entry of the `print` log of `clean_data`: the column-mismatch warning and
the three lines printed by the `except` handler. -/
inductive LogEntry where
  | warnColumns (outputCols targetCols : List String)
  | errorMsg (e : String)
  | errorPrompt (p : String)
  | errorResponse (r : String)
deriving DecidableEq

/-- The mutable locals of the loop in `clean_data`: the Python local `response`
(`none` while it has never been assigned — Python reads of it then raise
`NameError`), the prompts handed to the service so far, the log so far, and the
accumulator list `cleaned_chunks`. -/
structure LoopState where
  responseVar : Option String
  prompts : List String
  logs : List LogEntry
  cleanedChunks : List Table
deriving DecidableEq

/-- State at loop entry. -/
def initState : LoopState := ⟨none, [], [], []⟩

/-- Result of one loop iteration: either control continues, or an exception has
escaped the `except` handler and aborts `clean_data`. -/
inductive StepOut where
  | next (st : LoopState)
  | broke (st : LoopState) (e : String)

/-- The exception message used for a Python read of the unassigned local
`response` inside the `except` handler. -/
def nameErrorResponse : String := "NameError: name response is not defined"

/-- One iteration of the loop body of `clean_data` for chunk `k`:
build the prompt, call the service, parse the reply, coerce mismatched columns,
append to `cleaned_chunks`; the `except` handler prints the error, the prompt and
the local `response` — a read that raises `NameError` when no service call has
ever returned (the `broke` case), and that prints the previous chunk's stale reply
when an earlier call has. -/
def processChunk (env : Env) (a : Args) (k : Nat) (st : LoopState) : StepOut :=
  let prompt := promptOf a k
  let st1 := { st with prompts := st.prompts ++ [prompt] }
  match env.chat a.model k prompt with
  | .error e =>
    let st2 := { st1 with logs := st1.logs ++ [LogEntry.errorMsg e, LogEntry.errorPrompt prompt] }
    match st2.responseVar with
    | none => .broke st2 nameErrorResponse
    | some r => .next { st2 with logs := st2.logs ++ [LogEntry.errorResponse r] }
  | .ok resp =>
    let st2 := { st1 with responseVar := some resp }
    match env.read_csv resp with
    | .error e =>
      .next { st2 with
        logs := st2.logs ++ [LogEntry.errorMsg e, LogEntry.errorPrompt prompt, LogEntry.errorResponse resp] }
    | .ok cleaned_chunk =>
      if cleaned_chunk.cols = a.target_columns then
        .next { st2 with cleanedChunks := st2.cleanedChunks ++ [cleaned_chunk] }
      else
        let st3 := { st2 with
          logs := st2.logs ++ [LogEntry.warnColumns cleaned_chunk.cols a.target_columns] }
        match cleaned_chunk.reindexColumns a.target_columns with
        | .error e =>
          .next { st3 with
            logs := st3.logs ++ [LogEntry.errorMsg e, LogEntry.errorPrompt prompt, LogEntry.errorResponse resp] }
        | .ok forced =>
          .next { st3 with cleanedChunks := st3.cleanedChunks ++ [forced] }

/-- The loop of `clean_data` over the remaining chunk indices; the second component
is `some e` when an exception aborted the loop. -/
def runChunks (env : Env) (a : Args) : List Nat → LoopState → LoopState × Option String
  | [], st => (st, none)
  | k :: ks, st =>
    match processChunk env a k st with
    | .broke st e => (st, some e)
    | .next st => runChunks env a ks st

/-- The overall result of a run of `clean_data`: the prompts handed to the service,
the `print` log, and either the returned frame or the uncaught exception. -/
structure RunResult where
  prompts : List String
  logs : List LogEntry
  outcome : Except String Table

/-- Epilogue of `clean_data`: `pd.concat(cleaned_chunks, ignore_index=True)` when
`cleaned_chunks` is non-empty, the empty frame otherwise; an exception that escaped
the loop propagates. -/
def finalizeRun (st : LoopState) (err : Option String) : RunResult :=
  match err with
  | some e => { prompts := st.prompts, logs := st.logs, outcome := .error e }
  | none =>
    if st.cleanedChunks.isEmpty then
      { prompts := st.prompts, logs := st.logs, outcome := .ok emptyTable }
    else
      { prompts := st.prompts, logs := st.logs,
        outcome := .ok (concatIgnoreIndex st.cleanedChunks) }

/-- `clean_data` of `data_cleaner.py`, as a function of the ambient world `env`
and its arguments. `range(0, len(df), chunk_size)` is enumerated by chunk index
`k` (start offset `k * chunk_size`); `chunk_size = 0` reproduces the `ValueError`
Python's `range` raises on a zero step. -/
def clean_data (env : Env) (a : Args) : RunResult :=
  if a.chunk_size = 0 then
    { prompts := [], logs := [],
      outcome := .error "ValueError: range arg 3 must not be zero" }
  else
    let out := runChunks env a (List.range (numChunks a)) initState
    finalizeRun out.1 out.2

/-- The frame that the `k`-th chunk contributes to `cleaned_chunks`, written as a
direct per-chunk function: `none` when the service call raises, the reply fails to
parse, or the column coercion raises; otherwise the parsed frame, column-coerced
when its labels differ from the target list. -/
def chunkTable (env : Env) (a : Args) (k : Nat) : Option Table :=
  match env.chat a.model k (promptOf a k) with
  | .error _ => none
  | .ok resp =>
    match env.read_csv resp with
    | .error _ => none
    | .ok t =>
      if t.cols = a.target_columns then some t
      else
        match t.reindexColumns a.target_columns with
        | .error _ => none
        | .ok forced => some forced

/-- The log entries chunk `k` produces, given that the Python local `response`
holds `rv` when the chunk is entered. -/
def chunkLogsGiven (env : Env) (a : Args) (k : Nat) (rv : String) : List LogEntry :=
  match env.chat a.model k (promptOf a k) with
  | .error e => [.errorMsg e, .errorPrompt (promptOf a k), .errorResponse rv]
  | .ok resp =>
    match env.read_csv resp with
    | .error e => [.errorMsg e, .errorPrompt (promptOf a k), .errorResponse resp]
    | .ok t =>
      if t.cols = a.target_columns then []
      else
        match t.reindexColumns a.target_columns with
        | .error e => [.warnColumns t.cols a.target_columns,
            .errorMsg e, .errorPrompt (promptOf a k), .errorResponse resp]
        | .ok _ => [.warnColumns t.cols a.target_columns]

/-- Value of the Python local `response` after chunk `k`, given its value before. -/
def respAfter (env : Env) (a : Args) (k : Nat) (rv : String) : String :=
  match env.chat a.model k (promptOf a k) with
  | .ok r => r
  | .error _ => rv

/-- The log the loop produces over the chunk indices `ks`, given the value of the
local `response` at entry. -/
def logsFor (env : Env) (a : Args) : List Nat → String → List LogEntry
  | [], _ => []
  | k :: ks, rv =>
    chunkLogsGiven env a k rv ++ logsFor env a ks (respAfter env a k rv)

/-- `model_to_graph.py`: load the model from the fixed path `model.keras` and
render it to the fixed path `model.png`. The two library calls are oracles;
`Except.error` models a raised exception, and the script installs no handler, so
either error is the script's outcome. -/
def model_to_graph {M : Type} (load_model : String → Except String M)
    (plot_model : M → String → Except String Unit) : Except String Unit :=
  match load_model "model.keras" with
  | .error e => .error e
  | .ok m => plot_model m "model.png"

/-- The portion of the Python heap that `clean_data` receives through its
arguments: the caller's `df`, `target_columns` and `sample_data` objects.
The stateful rendering of `clean_data` below threads this heap through every
access so that mutation (or its absence) is explicit. -/
structure PyHeap where
  df : Table
  target_columns : List String
  sample_data : Option Table
deriving DecidableEq

/-- `len(df)` as a heap access: reads the heap, writes nothing. -/
def heapLen (h : PyHeap) : PyHeap × Nat := (h, h.df.rows.length)

/-- `df[i : j]` as a heap access: pandas slicing returns a new object and leaves
`df` untouched. -/
def heapSlice (h : PyHeap) (i j : Nat) : PyHeap × Table := (h, h.df.slice i j)

/-- Read of the `target_columns` argument. -/
def heapTargets (h : PyHeap) : PyHeap × List String := (h, h.target_columns)

/-- Read of the `sample_data` argument. -/
def heapSample (h : PyHeap) : PyHeap × Option Table := (h, h.sample_data)

/-- The loop body of `clean_data`, threading the heap through every access to the
caller's objects; all remaining work happens on chunk copies and the local
accumulator. -/
def processChunkH (env : Env) (model additional_prompt : String) (chunk_size : Nat)
    (k : Nat) (h : PyHeap) (st : LoopState) : PyHeap × StepOut :=
  let hc := heapSlice h (k * chunk_size) (k * chunk_size + chunk_size)
  let ht := heapTargets hc.1
  let hs := heapSample ht.1
  let prompt := buildPrompt ht.2 hs.2 additional_prompt hc.2.toCsv
  let st1 := { st with prompts := st.prompts ++ [prompt] }
  (hs.1,
    match env.chat model k prompt with
    | .error e =>
      let st2 := { st1 with logs := st1.logs ++ [LogEntry.errorMsg e, LogEntry.errorPrompt prompt] }
      match st2.responseVar with
      | none => .broke st2 nameErrorResponse
      | some r => .next { st2 with logs := st2.logs ++ [LogEntry.errorResponse r] }
    | .ok resp =>
      let st2 := { st1 with responseVar := some resp }
      match env.read_csv resp with
      | .error e =>
        .next { st2 with
          logs := st2.logs ++ [LogEntry.errorMsg e, LogEntry.errorPrompt prompt, LogEntry.errorResponse resp] }
      | .ok cleaned_chunk =>
        if cleaned_chunk.cols = ht.2 then
          .next { st2 with cleanedChunks := st2.cleanedChunks ++ [cleaned_chunk] }
        else
          let st3 := { st2 with
            logs := st2.logs ++ [LogEntry.warnColumns cleaned_chunk.cols ht.2] }
          match cleaned_chunk.reindexColumns ht.2 with
          | .error e =>
            .next { st3 with
              logs := st3.logs ++ [LogEntry.errorMsg e, LogEntry.errorPrompt prompt, LogEntry.errorResponse resp] }
          | .ok forced =>
            .next { st3 with cleanedChunks := st3.cleanedChunks ++ [forced] })

/-- The loop of the stateful rendering. -/
def runChunksH (env : Env) (model additional_prompt : String) (chunk_size : Nat) :
    List Nat → PyHeap → LoopState → PyHeap × LoopState × Option String
  | [], h, st => (h, st, none)
  | k :: ks, h, st =>
    match processChunkH env model additional_prompt chunk_size k h st with
    | (h, .broke st e) => (h, st, some e)
    | (h, .next st) => runChunksH env model additional_prompt chunk_size ks h st

/-- The stateful rendering of `clean_data`: same control flow as `clean_data`,
with every access to the caller's `df`, `target_columns` and `sample_data`
threaded through the heap. Returns the final heap together with the run result. -/
def clean_dataH (env : Env) (model additional_prompt : String) (chunk_size : Nat)
    (h : PyHeap) : PyHeap × RunResult :=
  if chunk_size = 0 then
    (h, { prompts := [], logs := [],
          outcome := .error "ValueError: range arg 3 must not be zero" })
  else
    let hl := heapLen h
    let out := runChunksH env model additional_prompt chunk_size
      (List.range ((hl.2 + chunk_size - 1) / chunk_size)) hl.1 initState
    (out.1, finalizeRun out.2.1 out.2.2)

/-- The `Args` record a heap together with the scalar arguments denotes. -/
def argsOfHeap (h : PyHeap) (model additional_prompt : String) (chunk_size : Nat) : Args :=
  { df := h.df, target_columns := h.target_columns, sample_data := h.sample_data,
    model := model, additional_prompt := additional_prompt, chunk_size := chunk_size }

/-! ### Characterization of the loop of `clean_data` -/

/-- One loop iteration, when the Python local `response` is already assigned:
the chunk's prompt is appended, its log entries are the per-chunk function
`chunkLogsGiven`, its contribution to `cleaned_chunks` is `chunkTable`, and the
local `response` is updated by `respAfter`; control always continues. -/
lemma processChunk_some (env : Env) (a : Args) (k : Nat) (st : LoopState) (rv : String)
    (h : st.responseVar = some rv) :
    processChunk env a k st = StepOut.next
      { responseVar := some (respAfter env a k rv),
        prompts := st.prompts ++ [promptOf a k],
        logs := st.logs ++ chunkLogsGiven env a k rv,
        cleanedChunks := st.cleanedChunks ++ (chunkTable env a k).toList } := by
  cases hc : env.chat a.model k (promptOf a k) with
  | error e => simp [processChunk, respAfter, chunkLogsGiven, chunkTable, hc, h]
  | ok resp =>
    cases hp : env.read_csv resp with
    | error e => simp [processChunk, respAfter, chunkLogsGiven, chunkTable, hc, hp]
    | ok t =>
      by_cases hcols : t.cols = a.target_columns
      · simp [processChunk, respAfter, chunkLogsGiven, chunkTable, hc, hp, hcols]
      · cases hr : t.reindexColumns a.target_columns with
        | error e =>
          simp [processChunk, respAfter, chunkLogsGiven, chunkTable, hc, hp, hcols, hr]
        | ok forced =>
          simp [processChunk, respAfter, chunkLogsGiven, chunkTable, hc, hp, hcols, hr]

/-- One loop iteration whose service call returns, regardless of the state of the
local `response` (the success branch never reads it); the seed `rv` of
`chunkLogsGiven` is arbitrary because a returned call logs no stale reply. -/
lemma processChunk_of_chat_ok (env : Env) (a : Args) (k : Nat) (st : LoopState)
    (r rv : String) (hc : env.chat a.model k (promptOf a k) = .ok r) :
    processChunk env a k st = StepOut.next
      { responseVar := some r,
        prompts := st.prompts ++ [promptOf a k],
        logs := st.logs ++ chunkLogsGiven env a k rv,
        cleanedChunks := st.cleanedChunks ++ (chunkTable env a k).toList } := by
  cases hp : env.read_csv r with
  | error e => simp [processChunk, chunkLogsGiven, chunkTable, hc, hp]
  | ok t =>
    by_cases hcols : t.cols = a.target_columns
    · simp [processChunk, chunkLogsGiven, chunkTable, hc, hp, hcols]
    · cases hr : t.reindexColumns a.target_columns with
      | error e => simp [processChunk, chunkLogsGiven, chunkTable, hc, hp, hcols, hr]
      | ok forced => simp [processChunk, chunkLogsGiven, chunkTable, hc, hp, hcols, hr]

/-- The loop over the remaining chunk indices, once some service call has
returned: it runs to completion and its effects are the per-chunk functions,
folded along the list of indices. -/
lemma runChunks_some (env : Env) (a : Args) (ks : List Nat) :
    ∀ (st : LoopState) (rv : String), st.responseVar = some rv →
    runChunks env a ks st =
      ({ responseVar := some (ks.foldl (fun r k => respAfter env a k r) rv),
         prompts := st.prompts ++ ks.map (promptOf a),
         logs := st.logs ++ logsFor env a ks rv,
         cleanedChunks := st.cleanedChunks ++ ks.filterMap (chunkTable env a) }, none) := by
  induction ks with
  | nil =>
    intro st rv h
    cases st
    simp_all [runChunks, logsFor]
  | cons k ks ih =>
    intro st rv h
    simp only [runChunks, processChunk_some env a k st rv h]
    rw [ih ⟨some (respAfter env a k rv), st.prompts ++ [promptOf a k],
        st.logs ++ chunkLogsGiven env a k rv,
        st.cleanedChunks ++ (chunkTable env a k).toList⟩ (respAfter env a k rv) rfl]
    cases hct : chunkTable env a k <;>
      simp [logsFor, List.filterMap_cons, hct, List.append_assoc]

/-- First loop iteration of a run whose first service call raises: the `except`
handler prints the error and the prompt, then the read of the never-assigned
local `response` raises `NameError`, aborting `clean_data`. -/
lemma runChunks_none_error (env : Env) (a : Args) (k : Nat) (ks : List Nat)
    (st : LoopState) (e : String)
    (h : st.responseVar = none) (hc : env.chat a.model k (promptOf a k) = .error e) :
    runChunks env a (k :: ks) st =
      ({ responseVar := none,
         prompts := st.prompts ++ [promptOf a k],
         logs := st.logs ++ [LogEntry.errorMsg e, LogEntry.errorPrompt (promptOf a k)],
         cleanedChunks := st.cleanedChunks }, some nameErrorResponse) := by
  have hstep : processChunk env a k st = StepOut.broke
      { responseVar := none,
        prompts := st.prompts ++ [promptOf a k],
        logs := st.logs ++ [LogEntry.errorMsg e, LogEntry.errorPrompt (promptOf a k)],
        cleanedChunks := st.cleanedChunks } nameErrorResponse := by
    simp [processChunk, hc, h]
  simp only [runChunks, hstep]

/-- `clean_data` on an empty table (no chunks): no prompts, no log, and the run
returns the empty frame. -/
lemma clean_data_zero_chunks (env : Env) (a : Args)
    (hC : a.chunk_size ≠ 0) (h0 : numChunks a = 0) :
    clean_data env a = { prompts := [], logs := [], outcome := .ok emptyTable } := by
  simp [clean_data, hC, h0, runChunks, finalizeRun, initState]

/-- `clean_data` when there is at least one chunk and the first service call
raises: one prompt is issued, the handler logs the error and the prompt, and the
run aborts with `NameError` before the stale-reply print. -/
lemma clean_data_first_error (env : Env) (a : Args) (e : String)
    (hC : a.chunk_size ≠ 0) (h1 : numChunks a ≠ 0)
    (hc : env.chat a.model 0 (promptOf a 0) = .error e) :
    clean_data env a =
      { prompts := [promptOf a 0],
        logs := [LogEntry.errorMsg e, LogEntry.errorPrompt (promptOf a 0)],
        outcome := .error nameErrorResponse } := by
  obtain ⟨m, hm⟩ : ∃ m, numChunks a = m + 1 := ⟨numChunks a - 1, by omega⟩
  rw [clean_data]
  simp only [if_neg hC, hm, List.range_succ_eq_map]
  rw [runChunks_none_error env a 0 _ initState e rfl hc]
  simp [finalizeRun, initState]

/-- `clean_data` when there is at least one chunk and the first service call
returns: the run completes; all prompts are issued, the log is `logsFor`, and the
outcome is the concatenation of the per-chunk tables (or the empty frame when
every chunk failed). -/
lemma clean_data_first_ok (env : Env) (a : Args) (r : String) (m : Nat)
    (hC : a.chunk_size ≠ 0) (hm : numChunks a = m + 1)
    (hc : env.chat a.model 0 (promptOf a 0) = .ok r) :
    clean_data env a =
      { prompts := (List.range (m + 1)).map (promptOf a),
        logs := logsFor env a (List.range (m + 1)) r,
        outcome := if ((List.range (m + 1)).filterMap (chunkTable env a)).isEmpty
          then .ok emptyTable
          else .ok (concatIgnoreIndex
            ((List.range (m + 1)).filterMap (chunkTable env a))) } := by
  rw [clean_data]
  simp only [if_neg hC, hm]
  rw [List.range_succ_eq_map]
  simp only [runChunks, processChunk_of_chat_ok env a 0 initState r r hc]
  rw [runChunks_some env a ((List.range m).map Nat.succ)
      ⟨some r, initState.prompts ++ [promptOf a 0],
        initState.logs ++ chunkLogsGiven env a 0 r,
        initState.cleanedChunks ++ (chunkTable env a 0).toList⟩ r rfl]
  have hresp : respAfter env a 0 r = r := by rw [respAfter, hc]
  cases hct : chunkTable env a 0 with
  | none =>
    simp [finalizeRun, initState, logsFor, hresp, hct, List.filterMap_cons]
    split <;> rfl
  | some t =>
    simp [finalizeRun, initState, logsFor, hresp, hct, List.filterMap_cons]

/-! ### Arithmetic of the chunk count and chunk lengths -/

/-- There is at least one chunk whenever the table is non-empty. -/
lemma numChunks_pos (a : Args) (hC : 0 < a.chunk_size) (hN : 0 < a.df.rows.length) :
    0 < numChunks a := by
  have h1 : 1 * a.chunk_size ≤ a.df.rows.length + a.chunk_size - 1 := by omega
  have := (Nat.le_div_iff_mul_le hC).mpr h1
  rw [numChunks]
  omega

/-- The empty table yields zero chunks (Python's `range(0, 0, C)` is empty). -/
lemma numChunks_zero (a : Args) (hC : 0 < a.chunk_size) (hN : a.df.rows.length = 0) :
    numChunks a = 0 := by
  rw [numChunks, hN]
  exact Nat.div_eq_of_lt (by omega)

/-- Exactly one chunk when `1 ≤ N ≤ chunk_size`. -/
lemma numChunks_one (a : Args) (hC : 0 < a.chunk_size) (h1 : 1 ≤ a.df.rows.length)
    (h2 : a.df.rows.length ≤ a.chunk_size) : numChunks a = 1 := by
  have hpos := numChunks_pos a hC (by omega)
  have hlt : numChunks a < 2 := by
    rw [numChunks]
    exact (Nat.div_lt_iff_lt_mul hC).mpr (by omega)
  omega

/-- The ceiling chunk count covers the whole table: `N ≤ ⌈N/C⌉ * C`. -/
lemma le_ceil_mul (len C : Nat) (hC : 0 < C) : len ≤ ((len + C - 1) / C) * C := by
  obtain ⟨q, hq⟩ : ∃ q, (len + C - 1) / C = q := ⟨_, rfl⟩
  rw [hq]
  obtain ⟨p, hp⟩ : ∃ p, q * C = p := ⟨_, rfl⟩
  rw [hp]
  by_contra hlt
  push_neg at hlt
  have h2 : (q + 1) * C ≤ len + C - 1 := by
    rw [Nat.succ_mul, hp]
    omega
  have h3 := (Nat.le_div_iff_mul_le hC).mpr h2
  rw [hq] at h3
  omega

/-- Splitting a list into `m` blocks of `C` at offsets `0, C, 2C, ...` covers all
of it: the block lengths sum to the list length as soon as `m * C` reaches it. -/
lemma sum_chunk_lengths {α : Type} (C : Nat) :
    ∀ (m : Nat) (l : List α), l.length ≤ m * C →
    (((List.range m).map (fun k => ((l.drop (k * C)).take C).length)).sum = l.length) := by
  intro m
  induction m with
  | zero =>
    intro l h
    simp only [Nat.zero_mul, Nat.le_zero] at h
    simp [h]
  | succ m ih =>
    intro l h
    rw [Nat.succ_mul] at h
    obtain ⟨b, hb⟩ : ∃ b, m * C = b := ⟨_, rfl⟩
    rw [hb] at h
    rw [List.range_succ_eq_map]
    simp only [List.map_cons, List.sum_cons]
    have hmap : List.map (fun k => ((l.drop (k * C)).take C).length)
          (List.map Nat.succ (List.range m))
        = List.map (fun k => ((((l.drop C).drop (k * C))).take C).length) (List.range m) := by
      rw [List.map_map]
      congr 1
      funext k
      simp [Function.comp, List.drop_drop, Nat.succ_mul, Nat.add_comm]
    have hih := ih (l.drop C) (by rw [List.length_drop, hb]; omega)
    rw [hmap, hih]
    simp only [Nat.zero_mul, List.drop_zero, List.length_take, List.length_drop]
    omega

/-! ### List helpers -/

/-- `filterMap` over a range degenerates to `map` when the function is total on
the range. -/
lemma filterMap_range_eq_map {α : Type} (f : Nat → Option α) (g : Nat → α) :
    ∀ n : Nat, (∀ k, k < n → f k = some (g k)) →
    (List.range n).filterMap f = (List.range n).map g := by
  intro n
  induction n with
  | zero => intro _; simp
  | succ n ih =>
    intro h
    rw [List.range_succ, List.filterMap_append, List.map_append,
      ih (fun k hk => h k (by omega))]
    simp [h n (by omega)]

/-- A log entry produced by some chunk of the run, whatever the stale-reply seed,
appears in the loop's log. -/
lemma mem_logsFor_of_mem (env : Env) (a : Args) (x : LogEntry) :
    ∀ (ks : List Nat) (rv : String) (k : Nat), k ∈ ks →
    (∀ rv2, x ∈ chunkLogsGiven env a k rv2) → x ∈ logsFor env a ks rv := by
  intro ks
  induction ks with
  | nil => simp
  | cons k2 ks ih =>
    intro rv k hk hx
    rw [logsFor]
    rcases List.mem_cons.mp hk with h | h
    · subst h
      exact List.mem_append_left _ (hx rv)
    · exact List.mem_append_right _ (ih _ k h hx)

/-! ### Concatenation and per-chunk table facts -/

/-- `pd.concat(..., ignore_index=True)` of frames that all carry the same column
list: labels kept, rows stacked, index reset to a fresh range. -/
lemma concatIgnoreIndex_same_cols (cs : List String) (ts : List Table)
    (hne : ts ≠ []) (hall : ∀ t ∈ ts, t.cols = cs) :
    concatIgnoreIndex ts =
      { cols := cs,
        index := List.range ((ts.map Table.rows).flatten.length),
        rows := (ts.map Table.rows).flatten } := by
  match ts with
  | t :: rest =>
    have ht : t.cols = cs := hall t (by simp)
    have hr : rest.all (fun u => decide (u.cols = t.cols)) = true := by
      rw [List.all_eq_true]
      intro u hu
      rw [decide_eq_true_eq, hall u (by simp [hu]), ht]
    simp [concatIgnoreIndex, hr, ht]
    intro x hx hxc
    exact absurd (hall x (List.mem_cons_of_mem t hx)) hxc

/-- The concatenation always gets the fresh index `0, 1, ...` over its rows. -/
lemma concatIgnoreIndex_index (ts : List Table) :
    (concatIgnoreIndex ts).index = List.range (concatIgnoreIndex ts).rows.length := by
  match ts with
  | [] => rfl
  | t :: rest =>
    by_cases hc : (rest.all fun u => decide (u.cols = t.cols)) = true
    · simp [concatIgnoreIndex, hc]
    · simp [concatIgnoreIndex, hc]

/-- Whatever a chunk contributes to `cleaned_chunks` carries exactly the target
column list: either the parsed columns already matched, or `reindex` forced them. -/
lemma chunkTable_cols (env : Env) (a : Args) (k : Nat) (T : Table)
    (h : chunkTable env a k = some T) : T.cols = a.target_columns := by
  rw [chunkTable] at h
  cases hc : env.chat a.model k (promptOf a k) with
  | error e => simp [hc] at h
  | ok resp =>
    simp only [hc] at h
    cases hp : env.read_csv resp with
    | error e => simp [hp] at h
    | ok t =>
      simp only [hp] at h
      by_cases hcols : t.cols = a.target_columns
      · rw [if_pos hcols] at h
        obtain rfl := Option.some.inj h
        exact hcols
      · rw [if_neg hcols] at h
        cases hr : t.reindexColumns a.target_columns with
        | error e => simp [hr] at h
        | ok forced =>
          simp only [hr] at h
          obtain rfl := Option.some.inj h
          rw [Table.reindexColumns] at hr
          by_cases hnd : t.cols.Nodup
          · rw [if_pos hnd] at hr
            rw [← Except.ok.inj hr]
          · rw [if_neg hnd] at hr
            simp at hr

/-! ### Cell-level semantics of the column coercion -/

/-- A label absent from the column list looks up to NaN. -/
lemma lookupCell_absent (c : String) :
    ∀ (cols : List String) (row : List Cell), c ∉ cols → lookupCell cols row c = none := by
  intro cols
  induction cols with
  | nil => intro row _; rfl
  | cons x xs ih =>
    intro row hc
    rw [lookupCell]
    rw [if_neg (by intro hxc; exact hc (by simp [hxc]))]
    exact ih _ (by intro hmem; exact hc (by simp [hmem]))

/-- With duplicate-free labels, the label at position `j` looks up to the cell at
position `j`. -/
lemma lookupCell_at (c : String) :
    ∀ (cols : List String) (row : List Cell) (j : Nat), cols.Nodup →
    j < cols.length → cols.getD j "" = c →
    lookupCell cols row c = row.getD j none := by
  intro cols
  induction cols with
  | nil => intro row j _ hj; simp at hj
  | cons x xs ih =>
    intro row j hnd hj hg
    cases j with
    | zero =>
      have hx : x = c := by simpa using hg
      rw [lookupCell, if_pos hx]
    | succ j2 =>
      have hj2 : j2 < xs.length := by simpa using hj
      have hg2 : xs.getD j2 "" = c := by simpa using hg
      have hx : ¬ x = c := by
        intro hxc
        have hmem : c ∈ xs := by
          have := List.getD_eq_getElem xs "" hj2
          rw [this] at hg2
          rw [← hg2]
          exact List.getElem_mem hj2
        rw [hxc] at hnd
        exact (List.nodup_cons.mp hnd).1 hmem
      rw [lookupCell, if_neg hx, ih _ j2 (List.nodup_cons.mp hnd).2 hj2 hg2]
      rw [List.getD_eq_getElem?_getD, List.getD_eq_getElem?_getD, List.getElem?_drop,
        Nat.add_comm 1 j2]

/-- Cell access in the rows produced by the column coercion: row `i`, target
position `m`, is the label lookup of the `m`-th target in the original row `i`. -/
lemma coerced_cell (rows : List (List Cell)) (targets cols : List String) (i m : Nat)
    (hm : m < targets.length) :
    (((rows.map (fun r => targets.map (fun c => lookupCell cols r c))).getD i []).getD m none)
      = (match rows[i]? with
        | some r => lookupCell cols r (targets.getD m "")
        | none => none) := by
  cases hi : rows[i]? with
  | none =>
    rw [List.getD_eq_getElem?_getD
      (rows.map (fun r => targets.map (fun c => lookupCell cols r c))) i []]
    rw [List.getElem?_map, hi]
    rfl
  | some r =>
    rw [List.getD_eq_getElem?_getD
      (rows.map (fun r => targets.map (fun c => lookupCell cols r c))) i []]
    rw [List.getElem?_map, hi]
    show (targets.map (fun c => lookupCell cols r c)).getD m none
      = lookupCell cols r (targets.getD m "")
    rw [List.getD_eq_getElem?_getD (targets.map (fun c => lookupCell cols r c)) m none]
    rw [List.getElem?_map, List.getElem?_eq_getElem hm]
    show lookupCell cols r targets[m] = lookupCell cols r (targets.getD m "")
    rw [List.getD_eq_getElem targets "" hm]

/-! ### The stateful rendering reads but never writes the caller's objects -/

/-- One iteration of the stateful loop leaves the heap unchanged and computes the
same step as the pure loop body. -/
lemma processChunkH_heap (env : Env) (model additional_prompt : String)
    (chunk_size k : Nat) (h : PyHeap) (st : LoopState) :
    processChunkH env model additional_prompt chunk_size k h st =
      (h, processChunk env (argsOfHeap h model additional_prompt chunk_size) k st) := rfl

/-- The stateful loop leaves the heap unchanged and computes the same result as
the pure loop. -/
lemma runChunksH_heap (env : Env) (model additional_prompt : String) (chunk_size : Nat) :
    ∀ (ks : List Nat) (h : PyHeap) (st : LoopState),
    runChunksH env model additional_prompt chunk_size ks h st =
      (h, runChunks env (argsOfHeap h model additional_prompt chunk_size) ks st) := by
  intro ks
  induction ks with
  | nil => intro h st; rfl
  | cons k ks ih =>
    intro h st
    rw [runChunksH, processChunkH_heap]
    cases hp : processChunk env (argsOfHeap h model additional_prompt chunk_size) k st with
    | broke st2 e => simp [runChunks, hp]
    | next st2 => simp [runChunks, hp, ih]

/-! ### Concrete fixtures for witnesses and counterexamples -/

/-- A reply table with the single target column and one row. -/
def replyTable : Table := { cols := ["a"], index := [0], rows := [[some "1"]] }

/-- A reply table with the single target column and two rows. -/
def replyTable2 : Table :=
  { cols := ["a"], index := [0, 1], rows := [[some "1"], [some "2"]] }

/-- Environment whose service always replies and whose replies parse to
`replyTable`. -/
def envOk : Env :=
  { chat := fun _ _ _ => .ok "a\n1\n", read_csv := fun _ => .ok replyTable }

/-- Environment whose replies parse to the two-row `replyTable2`. -/
def envTwoRowReply : Env :=
  { chat := fun _ _ _ => .ok "a\n1\n2\n", read_csv := fun _ => .ok replyTable2 }

/-- Environment whose service always raises. -/
def envDown : Env :=
  { chat := fun _ _ _ => .error "service unavailable", read_csv := fun _ => .error "parse" }

/-- A one-row input frame with the default-like chunk size 200. -/
def argsOneRow : Args :=
  { df := { cols := ["x"], index := [0], rows := [[some "v"]] },
    target_columns := ["a"], sample_data := none, additional_prompt := "",
    model := "deepseek-r1", chunk_size := 200 }

/-- A two-row input frame with chunk size 1 (two chunks). -/
def argsTwoRows : Args :=
  { df := { cols := ["x"], index := [0, 1], rows := [[some "1"], [some "2"]] },
    target_columns := ["a"], sample_data := none, additional_prompt := "",
    model := "deepseek-r1", chunk_size := 1 }

/-- A three-row input frame with chunk size 2 (two chunks). -/
def argsThreeRows : Args :=
  { df := { cols := ["x"], index := [0, 1, 2],
            rows := [[some "1"], [some "2"], [some "3"]] },
    target_columns := ["a"], sample_data := none, additional_prompt := "",
    model := "deepseek-r1", chunk_size := 2 }

/-- The empty input frame. -/
def argsEmpty : Args :=
  { df := { cols := ["x"], index := [], rows := [] },
    target_columns := ["a"], sample_data := none, additional_prompt := "",
    model := "deepseek-r1", chunk_size := 200 }

/-! ### Claim theorems -/

/-- C1: the claim is the spec's intent but the code violates it. When the very
first chunk's service call raises, the `except` handler logs the error and the
prompt, but its third `print` reads the local `response`, which no iteration has
ever assigned — that read raises `NameError`, which propagates to the caller
instead of the promised error-free completion (the docstring of `clean_data`
promises "an empty DataFrame if errors occur"). Evaluated here on a one-chunk
table with a raising service: the outcome is the uncaught `NameError`, and the
log stops after the error and the prompt — no raw reply exists to log. -/
theorem C1_first_chunk_error_raises :
    (clean_data envDown argsOneRow).outcome = .error nameErrorResponse
    ∧ (clean_data envDown argsOneRow).logs
        = [LogEntry.errorMsg "service unavailable",
           LogEntry.errorPrompt (promptOf argsOneRow 0)] := by
  exact ⟨rfl, rfl⟩

/-- C6: the claim is the spec's intent but the code violates it in the case in
which the chunks fail because the service raises: with a three-row table, chunk
size 2 and a service that always raises, every chunk fails, yet `clean_data`
does not return an empty table — the first chunk's `except` handler raises
`NameError` (unassigned local `response`) and the run aborts. (When every chunk
fails with the service still replying — parse failures — the empty frame is
returned as claimed.) -/
theorem C6_all_fail_raises_instead_of_empty :
    (clean_data envDown argsThreeRows).outcome = .error nameErrorResponse
    ∧ (clean_data envDown argsThreeRows).outcome ≠ .ok emptyTable := by
  refine ⟨rfl, ?_⟩
  intro hcontra
  have h1 : (clean_data envDown argsThreeRows).outcome
      = Except.error nameErrorResponse := rfl
  rw [h1] at hcontra
  exact Except.noConfusion hcontra

/-- C9: `model_to_graph.py` installs no handler: an error raised by loading
`model.keras` is the script's outcome unchanged; an error raised by rendering to
`model.png` likewise; and the script only succeeds when both calls do. -/
theorem C9_model_to_graph_propagates {M : Type}
    (load_model : String → Except String M)
    (plot_model : M → String → Except String Unit) :
    (∀ e, load_model "model.keras" = .error e →
        model_to_graph load_model plot_model = .error e)
    ∧ (∀ mdl e, load_model "model.keras" = .ok mdl →
        plot_model mdl "model.png" = .error e →
        model_to_graph load_model plot_model = .error e)
    ∧ (model_to_graph load_model plot_model = .ok () ↔
        ∃ mdl, load_model "model.keras" = .ok mdl
          ∧ plot_model mdl "model.png" = .ok ()) := by
  refine ⟨?_, ?_, ?_⟩
  · intro e he
    rw [model_to_graph, he]
  · intro mdl e hl hp
    rw [model_to_graph, hl]
    exact hp
  · constructor
    · intro h
      cases hl : load_model "model.keras" with
      | error e =>
        rw [model_to_graph, hl] at h
        exact absurd h (by simp)
      | ok mdl =>
        rw [model_to_graph, hl] at h
        exact ⟨mdl, rfl, h⟩
    · rintro ⟨mdl, hl, hp⟩
      rw [model_to_graph, hl]
      exact hp

/-- Witness for C9 at a concrete instance: a missing model file terminates the
script with that very error. -/
theorem C9_model_to_graph_propagates_witness :
    model_to_graph (fun _ => (Except.error "model file not found" : Except String Unit))
      (fun _ _ => Except.ok ()) = .error "model file not found" :=
  (C9_model_to_graph_propagates
    (fun _ => (Except.error "model file not found" : Except String Unit))
    (fun _ _ => Except.ok ())).1 "model file not found" rfl

/-- C10: `clean_data` never mutates its arguments. In the stateful rendering,
where every access to the caller's `df`, `target_columns` and `sample_data` is
threaded through an explicit heap, the heap after the call equals the heap
before it — the function only slices and serializes the inputs — and the
computed result is that of the pure `clean_data`. -/
theorem C10_no_argument_mutation (env : Env) (model additional_prompt : String)
    (chunk_size : Nat) (h : PyHeap) :
    (clean_dataH env model additional_prompt chunk_size h).1 = h
    ∧ (clean_dataH env model additional_prompt chunk_size h).2
        = clean_data env (argsOfHeap h model additional_prompt chunk_size) := by
  have key : clean_dataH env model additional_prompt chunk_size h
      = (h, clean_data env (argsOfHeap h model additional_prompt chunk_size)) := by
    rw [clean_dataH, clean_data]
    by_cases hcs : chunk_size = 0
    · simp [hcs, argsOfHeap]
    · simp only [if_neg hcs, show ¬ (argsOfHeap h model additional_prompt chunk_size).chunk_size = 0 from hcs]
      rw [runChunksH_heap]
      simp [heapLen, argsOfHeap, numChunks]
  exact ⟨by rw [key], by rw [key]⟩

/-- C3 counterexample: a two-row table with chunk size 1 should get
`⌈2/1⌉ = 2` prompts, but with a service that raises on the first call the run
aborts with the handler's `NameError` after a single prompt. -/
theorem C3_counterexample :
    argsTwoRows.df.rows.length = 2
    ∧ 0 < argsTwoRows.chunk_size
    ∧ (argsTwoRows.df.rows.length + argsTwoRows.chunk_size - 1) / argsTwoRows.chunk_size = 2
    ∧ (clean_data envDown argsTwoRows).prompts.length = 1 := by
  exact ⟨rfl, by decide, rfl, rfl⟩

/-- C3 (amended): provided the run completes without raising (which fails only
when the first chunk's service call raises), `clean_data` issues exactly
`⌈N / C⌉` prompts — the `k`-th being the prompt built from the `k`-th chunk —
and every chunk is the consecutive row range starting at `k * C` of at most `C`
rows. -/
theorem C3_amended_prompt_count (env : Env) (a : Args)
    (hC : 0 < a.chunk_size)
    (hok : (clean_data env a).outcome.isOk = true) :
    (clean_data env a).prompts = (List.range (numChunks a)).map (promptOf a)
    ∧ (clean_data env a).prompts.length
        = (a.df.rows.length + a.chunk_size - 1) / a.chunk_size
    ∧ (∀ k, (chunkOf a k).rows = (a.df.rows.drop (k * a.chunk_size)).take a.chunk_size
        ∧ (chunkOf a k).rows.length ≤ a.chunk_size) := by
  have hC0 : a.chunk_size ≠ 0 := by omega
  have hchunks : ∀ k : Nat,
      (chunkOf a k).rows = (a.df.rows.drop (k * a.chunk_size)).take a.chunk_size
      ∧ (chunkOf a k).rows.length ≤ a.chunk_size := by
    intro k
    constructor
    · rw [chunkOf, Table.slice, Nat.add_sub_cancel_left]
    · rw [chunkOf, Table.slice]
      simp only [List.length_take, List.length_drop]
      omega
  have hprompts : (clean_data env a).prompts
      = (List.range (numChunks a)).map (promptOf a) := by
    rcases Nat.eq_zero_or_pos (numChunks a) with h0 | hpos
    · rw [clean_data_zero_chunks env a hC0 h0, h0]
      rfl
    · obtain ⟨m, hm⟩ : ∃ m, numChunks a = m + 1 := ⟨numChunks a - 1, by omega⟩
      cases hc : env.chat a.model 0 (promptOf a 0) with
      | error e =>
        rw [clean_data_first_error env a e hC0 (by omega) hc] at hok
        exact absurd hok (by simp [Except.isOk, Except.toBool])
      | ok r =>
        rw [clean_data_first_ok env a r m hC0 hm hc, hm]
  refine ⟨hprompts, ?_, hchunks⟩
  rw [hprompts, List.length_map, List.length_range, numChunks]

/-- Witness for C3 (amended) on a completing two-chunk run. -/
theorem C3_amended_prompt_count_witness :
    (0 < argsTwoRows.chunk_size
      ∧ (clean_data envOk argsTwoRows).outcome.isOk = true)
    ∧ (clean_data envOk argsTwoRows).prompts.length
        = (argsTwoRows.df.rows.length + argsTwoRows.chunk_size - 1)
            / argsTwoRows.chunk_size :=
  ⟨⟨by decide, rfl⟩,
    (C3_amended_prompt_count envOk argsTwoRows (by decide) rfl).2.1⟩

/-- C8 counterexample: on the empty table, `range(0, 0, C)` is empty and no
prompt at all is issued, against the claimed one prompt for the `N = 0` case. -/
theorem C8_counterexample :
    argsEmpty.df.rows.length ≤ argsEmpty.chunk_size
    ∧ argsEmpty.df.rows.length = 0
    ∧ (clean_data envOk argsEmpty).prompts.length = 0
    ∧ (clean_data envOk argsEmpty).prompts.length ≠ 1 := by
  exact ⟨by decide, rfl, rfl, by decide⟩

/-- C8 (amended): for `1 ≤ N ≤ chunk_size` exactly one prompt is issued — the
first chunk's — whatever the service and the parser do; for `N = 0` no prompt is
issued. -/
theorem C8_amended_one_prompt (env : Env) (a : Args)
    (h1 : 1 ≤ a.df.rows.length) (h2 : a.df.rows.length ≤ a.chunk_size) :
    (clean_data env a).prompts = [promptOf a 0] := by
  have hC : 0 < a.chunk_size := by omega
  have hm := numChunks_one a hC h1 h2
  have hC0 : a.chunk_size ≠ 0 := by omega
  cases hc : env.chat a.model 0 (promptOf a 0) with
  | error e =>
    rw [clean_data_first_error env a e hC0 (by omega) hc]
  | ok r =>
    rw [clean_data_first_ok env a r 0 hC0 hm hc]
    rfl

/-- Witness for C8 (amended) on a one-row table with chunk size 200. -/
theorem C8_amended_one_prompt_witness :
    (1 ≤ argsOneRow.df.rows.length
      ∧ argsOneRow.df.rows.length ≤ argsOneRow.chunk_size)
    ∧ (clean_data envOk argsOneRow).prompts = [promptOf argsOneRow 0] :=
  ⟨⟨by decide, by decide⟩,
    C8_amended_one_prompt envOk argsOneRow (by decide) (by decide)⟩

/-- C2 counterexample, in two parts. (i) The code never verifies that a reply
has as many rows as its chunk: on a one-row table whose single reply parses —
with exactly the requested columns — to two rows, the output has 2 rows, not
`N = 1`. (ii) On the empty table (`N = 0`, all calls vacuously succeed) the
returned frame is `pd.DataFrame()`, whose column list is empty, not the
requested one. -/
theorem C2_counterexample :
    (envTwoRowReply.read_csv "a\n1\n2\n" = .ok replyTable2
      ∧ replyTable2.cols = argsOneRow.target_columns
      ∧ argsOneRow.df.rows.length = 1
      ∧ (clean_data envTwoRowReply argsOneRow).outcome
          = .ok { cols := ["a"], index := [0, 1], rows := [[some "1"], [some "2"]] })
    ∧ ((clean_data envOk argsEmpty).outcome = .ok emptyTable
      ∧ emptyTable.cols ≠ argsEmpty.target_columns) := by
  exact ⟨⟨rfl, rfl, rfl, rfl⟩, ⟨rfl, by decide⟩⟩

/-- C2 (amended): for a non-empty table, if every chunk's service call returns,
every reply parses with exactly the requested target columns, and every parsed
reply has exactly as many rows as its chunk, then `clean_data` returns a table
of exactly `N` rows whose columns are the requested list in order. -/
theorem C2_amended (env : Env) (a : Args) (rep : Nat → String) (tab : Nat → Table)
    (hC : 0 < a.chunk_size) (hN : 1 ≤ a.df.rows.length)
    (hchat : ∀ k, k < numChunks a → env.chat a.model k (promptOf a k) = .ok (rep k))
    (hparse : ∀ k, k < numChunks a → env.read_csv (rep k) = .ok (tab k))
    (hcols : ∀ k, k < numChunks a → (tab k).cols = a.target_columns)
    (hrows : ∀ k, k < numChunks a → (tab k).rows.length = (chunkOf a k).rows.length) :
    ∃ T, (clean_data env a).outcome = .ok T
      ∧ T.rows.length = a.df.rows.length
      ∧ T.cols = a.target_columns := by
  have hC0 : a.chunk_size ≠ 0 := by omega
  have hpos : 0 < numChunks a := numChunks_pos a hC (by omega)
  obtain ⟨m, hm⟩ : ∃ m, numChunks a = m + 1 := ⟨numChunks a - 1, by omega⟩
  have hct : ∀ k, k < numChunks a → chunkTable env a k = some (tab k) := by
    intro k hk
    simp [chunkTable, hchat k hk, hparse k hk, hcols k hk]
  have hfil : (List.range (numChunks a)).filterMap (chunkTable env a)
      = (List.range (numChunks a)).map tab :=
    filterMap_range_eq_map (chunkTable env a) tab (numChunks a) (fun k hk => hct k hk)
  rw [hm] at hfil
  have hne : (List.range (m + 1)).map tab ≠ [] := by simp
  have hout : (clean_data env a).outcome
      = .ok (concatIgnoreIndex ((List.range (m + 1)).map tab)) := by
    rw [clean_data_first_ok env a (rep 0) m hC0 hm (hchat 0 hpos)]
    show (if ((List.range (m + 1)).filterMap (chunkTable env a)).isEmpty = true
        then (Except.ok emptyTable : Except String Table)
        else .ok (concatIgnoreIndex ((List.range (m + 1)).filterMap (chunkTable env a))))
      = .ok (concatIgnoreIndex ((List.range (m + 1)).map tab))
    rw [hfil, if_neg (show ¬ ((List.range (m + 1)).map tab).isEmpty = true by simp)]
  have hallcols : ∀ t ∈ (List.range (m + 1)).map tab, t.cols = a.target_columns := by
    intro t ht
    obtain ⟨k, hk, rfl⟩ := List.mem_map.mp ht
    exact hcols k (by rw [hm]; exact List.mem_range.mp hk)
  have hconc := concatIgnoreIndex_same_cols a.target_columns
    ((List.range (m + 1)).map tab) hne hallcols
  refine ⟨_, hout, ?_, ?_⟩
  · rw [hconc]
    show (((List.range (m + 1)).map tab).map Table.rows).flatten.length
      = a.df.rows.length
    rw [List.length_flatten, List.map_map, List.map_map]
    have hcong : List.map ((List.length ∘ Table.rows) ∘ tab) (List.range (m + 1))
        = List.map (fun k => ((a.df.rows.drop (k * a.chunk_size)).take a.chunk_size).length)
            (List.range (m + 1)) := by
      apply List.map_congr_left
      intro k hk
      have hk2 : k < numChunks a := by rw [hm]; exact List.mem_range.mp hk
      show (tab k).rows.length = _
      rw [hrows k hk2, chunkOf, Table.slice, Nat.add_sub_cancel_left]
    rw [hcong, ← hm]
    exact sum_chunk_lengths a.chunk_size (numChunks a) a.df.rows (by
      rw [numChunks]
      exact le_ceil_mul a.df.rows.length a.chunk_size hC)
  · rw [hconc]

/-- Witness for C2 (amended) on a one-row table whose single reply parses to a
one-row table with the requested column. -/
theorem C2_amended_witness :
    (0 < argsOneRow.chunk_size ∧ 1 ≤ argsOneRow.df.rows.length)
    ∧ ∃ T, (clean_data envOk argsOneRow).outcome = .ok T
        ∧ T.rows.length = argsOneRow.df.rows.length
        ∧ T.cols = argsOneRow.target_columns := by
  refine ⟨⟨by decide, by decide⟩, ?_⟩
  exact C2_amended envOk argsOneRow (fun _ => "a\n1\n") (fun _ => replyTable)
    (by decide) (by decide)
    (fun k hk => rfl) (fun k hk => rfl) (fun k hk => rfl)
    (fun k hk => by
      have h1 : numChunks argsOneRow = 1 := by decide
      rw [h1] at hk
      have hk0 : k = 0 := by omega
      subst hk0
      rfl)

/-- The 450-row input frame with chunk size 200 of the spec's concrete scenario. -/
def args450 : Args :=
  { df := { cols := ["x"], index := List.range 450,
            rows := List.replicate 450 [some "v"] },
    target_columns := ["a"], sample_data := none, additional_prompt := "",
    model := "deepseek-r1", chunk_size := 200 }

/-- Environment for the 450-row scenario: the third service call raises, the
first two reply, and replies parse to the one-row `replyTable`. -/
def env450bad : Env :=
  { chat := fun _ k _ => if k ≤ 1 then .ok "a\n1\n" else .error "service unavailable",
    read_csv := fun _ => .ok replyTable }

/-- A 200-row reply table with the requested column. -/
def bigTable : Table :=
  { cols := ["a"], index := List.range 200, rows := List.replicate 200 [some "1"] }

/-- Environment for the 450-row scenario: the third service call raises, the
first two reply, and replies parse to the 200-row `bigTable`. -/
def env450ok : Env :=
  { chat := fun _ k _ => if k ≤ 1 then .ok "big" else .error "service unavailable",
    read_csv := fun _ => .ok bigTable }

set_option maxRecDepth 8192 in
/-- C4 counterexample: in the 450-row, chunk-size-200 scenario with the third
call raising and the first two replies parsing — with the requested columns — to
one-row tables, all three prompts are issued but the returned table has 2 rows,
not the claimed 400: the code never verifies reply row counts. -/
theorem C4_counterexample :
    args450.df.rows.length = 450
    ∧ args450.chunk_size = 200
    ∧ env450bad.chat args450.model 0 (promptOf args450 0) = .ok "a\n1\n"
    ∧ env450bad.chat args450.model 1 (promptOf args450 1) = .ok "a\n1\n"
    ∧ env450bad.chat args450.model 2 (promptOf args450 2)
        = .error "service unavailable"
    ∧ env450bad.read_csv "a\n1\n" = .ok replyTable
    ∧ replyTable.cols = args450.target_columns
    ∧ (clean_data env450bad args450).prompts.length = 3
    ∧ (clean_data env450bad args450).outcome
        = .ok { cols := ["a"], index := [0, 1], rows := [[some "1"], [some "1"]] } := by
  exact ⟨rfl, rfl, rfl, rfl, rfl, rfl, rfl, rfl, rfl⟩

/-- C4 (amended): 450 rows with chunk size 200 give 3 prompts over chunks of
200, 200 and 50 rows; if the third service call raises while the first two
replies parse with the requested columns and — as the counterexample forces one
to assume — 200 rows each, the returned table has exactly 400 rows. -/
theorem C4_amended (env : Env) (a : Args) (r0 r1 e : String) (t0 t1 : Table)
    (hN : a.df.rows.length = 450) (hC : a.chunk_size = 200)
    (hc0 : env.chat a.model 0 (promptOf a 0) = .ok r0)
    (hc1 : env.chat a.model 1 (promptOf a 1) = .ok r1)
    (hc2 : env.chat a.model 2 (promptOf a 2) = .error e)
    (hp0 : env.read_csv r0 = .ok t0)
    (hp1 : env.read_csv r1 = .ok t1)
    (hcols0 : t0.cols = a.target_columns)
    (hcols1 : t1.cols = a.target_columns)
    (hrows0 : t0.rows.length = 200)
    (hrows1 : t1.rows.length = 200) :
    (clean_data env a).prompts.length = 3
    ∧ (chunkOf a 0).rows.length = 200
    ∧ (chunkOf a 1).rows.length = 200
    ∧ (chunkOf a 2).rows.length = 50
    ∧ ∃ T, (clean_data env a).outcome = .ok T
        ∧ T.rows.length = 400 ∧ T.cols = a.target_columns := by
  have hm : numChunks a = 3 := by rw [numChunks, hN, hC]
  have hC0 : a.chunk_size ≠ 0 := by omega
  have hct0 : chunkTable env a 0 = some t0 := by simp [chunkTable, hc0, hp0, hcols0]
  have hct1 : chunkTable env a 1 = some t1 := by simp [chunkTable, hc1, hp1, hcols1]
  have hct2 : chunkTable env a 2 = none := by simp [chunkTable, hc2]
  have hfil : (List.range 3).filterMap (chunkTable env a) = [t0, t1] := by
    rw [show List.range 3 = [0, 1, 2] from rfl]
    simp [List.filterMap_cons, hct0, hct1, hct2]
  have hrun := clean_data_first_ok env a r0 2 hC0 hm hc0
  have hout : (clean_data env a).outcome = .ok (concatIgnoreIndex [t0, t1]) := by
    rw [hrun]
    show (if ((List.range 3).filterMap (chunkTable env a)).isEmpty = true
        then (Except.ok emptyTable : Except String Table)
        else .ok (concatIgnoreIndex ((List.range 3).filterMap (chunkTable env a))))
      = .ok (concatIgnoreIndex [t0, t1])
    rw [hfil]
    rfl
  have hconc := concatIgnoreIndex_same_cols a.target_columns [t0, t1] (by simp)
    (by
      intro t ht
      rcases List.mem_cons.mp ht with rfl | ht2
      · exact hcols0
      · rcases List.mem_cons.mp ht2 with rfl | ht3
        · exact hcols1
        · exact absurd ht3 (by simp))
  have hchunklen : ∀ k : Nat, (chunkOf a k).rows.length
      = min a.chunk_size (a.df.rows.length - k * a.chunk_size) := by
    intro k
    rw [chunkOf, Table.slice]
    simp only [List.length_take, List.length_drop, Nat.add_sub_cancel_left]
  refine ⟨?_, ?_, ?_, ?_, concatIgnoreIndex [t0, t1], hout, ?_, ?_⟩
  · rw [hrun]
    show ((List.range 3).map (promptOf a)).length = 3
    simp
  · rw [hchunklen 0, hN, hC]
    omega
  · rw [hchunklen 1, hN, hC]
    omega
  · rw [hchunklen 2, hN, hC]
    omega
  · rw [hconc]
    show ([t0.rows, t1.rows]).flatten.length = 400
    simp [hrows0, hrows1]
  · rw [hconc]

set_option maxRecDepth 8192 in
/-- Witness for C4 (amended) on the concrete 450-row frame with 200-row parsed
replies. -/
theorem C4_amended_witness :
    (args450.df.rows.length = 450 ∧ args450.chunk_size = 200
      ∧ bigTable.rows.length = 200)
    ∧ ((clean_data env450ok args450).prompts.length = 3
      ∧ ∃ T, (clean_data env450ok args450).outcome = .ok T
          ∧ T.rows.length = 400 ∧ T.cols = args450.target_columns) := by
  have h := C4_amended env450ok args450 "big" "big" "service unavailable"
    bigTable bigTable
    (by simp [args450]) rfl rfl rfl rfl rfl rfl rfl rfl
    (by simp [bigTable]) (by simp [bigTable])
  exact ⟨⟨by simp [args450], rfl, by simp [bigTable]⟩, h.1, h.2.2.2.2⟩

/-- C5: when a chunk's reply parses to a table whose column list differs from
the requested targets, `clean_data` prints the mismatch warning and the chunk
contributes the column-coerced table: its columns become exactly the target
list (extra parsed columns are dropped with it), each target column present in
the parsed reply keeps that reply's values, and each target column absent from
the reply is present with NaN (empty) cells. The `Nodup` hypothesis reflects
`pd.read_csv`, which never returns duplicate column labels (it mangles them);
the first-call hypothesis states that the run reaches chunk `k` at all — for
`k = 0` it follows from the chunk's own reply. -/
theorem C5_mismatch_warns_and_coerces (env : Env) (a : Args) (k : Nat)
    (r : String) (t : Table)
    (hC : 0 < a.chunk_size) (hk : k < numChunks a)
    (hfirst : ∃ r0, env.chat a.model 0 (promptOf a 0) = .ok r0)
    (hc : env.chat a.model k (promptOf a k) = .ok r)
    (hp : env.read_csv r = .ok t)
    (hne : t.cols ≠ a.target_columns)
    (hnd : t.cols.Nodup) :
    LogEntry.warnColumns t.cols a.target_columns ∈ (clean_data env a).logs
    ∧ ∃ forced, chunkTable env a k = some forced
      ∧ forced.cols = a.target_columns
      ∧ forced.rows.length = t.rows.length
      ∧ (∀ i m, m < a.target_columns.length →
          a.target_columns.getD m "" ∉ t.cols →
          (forced.rows.getD i []).getD m none = none)
      ∧ (∀ i m j, m < a.target_columns.length → j < t.cols.length →
          t.cols.getD j "" = a.target_columns.getD m "" →
          (forced.rows.getD i []).getD m none
            = (t.rows.getD i []).getD j none) := by
  obtain ⟨r0, hc0⟩ := hfirst
  have hC0 : a.chunk_size ≠ 0 := by omega
  obtain ⟨m0, hm⟩ : ∃ m0, numChunks a = m0 + 1 := ⟨numChunks a - 1, by omega⟩
  have hre : t.reindexColumns a.target_columns = .ok
      { cols := a.target_columns, index := t.index,
        rows := t.rows.map (fun row => a.target_columns.map
          (fun c => lookupCell t.cols row c)) } := by
    rw [Table.reindexColumns, if_pos hnd]
  have hct : chunkTable env a k = some
      { cols := a.target_columns, index := t.index,
        rows := t.rows.map (fun row => a.target_columns.map
          (fun c => lookupCell t.cols row c)) } := by
    simp [chunkTable, hc, hp, hne, hre]
  have hwarnmem : ∀ rv2, LogEntry.warnColumns t.cols a.target_columns
      ∈ chunkLogsGiven env a k rv2 := by
    intro rv2
    simp [chunkLogsGiven, hc, hp, hne, hre]
  constructor
  · rw [clean_data_first_ok env a r0 m0 hC0 hm hc0]
    show LogEntry.warnColumns t.cols a.target_columns
      ∈ logsFor env a (List.range (m0 + 1)) r0
    exact mem_logsFor_of_mem env a _ (List.range (m0 + 1)) r0 k
      (List.mem_range.mpr (by omega)) hwarnmem
  · refine ⟨_, hct, rfl, by simp, ?_, ?_⟩
    · intro i m hm2 habs
      rw [coerced_cell t.rows a.target_columns t.cols i m hm2]
      cases hi : t.rows[i]? with
      | none => rfl
      | some row => exact lookupCell_absent _ _ _ habs
    · intro i m j hm2 hj hgj
      rw [coerced_cell t.rows a.target_columns t.cols i m hm2]
      cases hi : t.rows[i]? with
      | none =>
        have hrow : t.rows.getD i [] = [] := by
          rw [List.getD_eq_getElem?_getD, hi]
          rfl
        rw [hrow]
        rfl
      | some row =>
        have hrow : t.rows.getD i [] = row := by
          rw [List.getD_eq_getElem?_getD, hi]
          rfl
        rw [hrow]
        exact lookupCell_at _ _ _ _ hnd hj hgj

/-- A parsed reply with columns A and B only. -/
def abTable : Table :=
  { cols := ["A", "B"], index := [0], rows := [[some "1", some "2"]] }

/-- Arguments requesting columns A, B, C over a one-row frame. -/
def argsABC : Args :=
  { df := { cols := ["x"], index := [0], rows := [[some "v"]] },
    target_columns := ["A", "B", "C"], sample_data := none,
    additional_prompt := "", model := "deepseek-r1", chunk_size := 200 }

/-- Environment whose replies parse to `abTable`. -/
def envAB : Env :=
  { chat := fun _ _ _ => .ok "A,B\n1,2\n", read_csv := fun _ => .ok abTable }

/-- Witness for C5 at the spec's own example: parsed columns A, B against
targets A, B, C. -/
theorem C5_mismatch_warns_and_coerces_witness :
    (abTable.cols ≠ argsABC.target_columns ∧ abTable.cols.Nodup)
    ∧ (LogEntry.warnColumns abTable.cols argsABC.target_columns
        ∈ (clean_data envAB argsABC).logs
      ∧ ∃ forced, chunkTable envAB argsABC 0 = some forced
          ∧ forced.cols = argsABC.target_columns) := by
  have h := C5_mismatch_warns_and_coerces envAB argsABC 0 "A,B\n1,2\n" abTable
    (by decide) (by decide) ⟨"A,B\n1,2\n", rfl⟩ rfl rfl (by decide) (by decide)
  obtain ⟨f, hf1, hf2, _⟩ := h.2
  exact ⟨⟨by decide, by decide⟩, h.1, f, hf1, hf2⟩

/-- C7: a returned table is the concatenation, in chunk (input row-range) order,
of exactly the successfully produced per-chunk tables (parsed and, when needed,
column-coerced), with the row index reset to the fresh range `0, 1, ...`. -/
theorem C7_output_is_ordered_concat (env : Env) (a : Args) (T : Table)
    (hC : 0 < a.chunk_size)
    (hout : (clean_data env a).outcome = .ok T) :
    T = concatIgnoreIndex ((List.range (numChunks a)).filterMap (chunkTable env a))
    ∧ T.index = List.range T.rows.length := by
  have hC0 : a.chunk_size ≠ 0 := by omega
  have hmain : T = concatIgnoreIndex
      ((List.range (numChunks a)).filterMap (chunkTable env a)) := by
    rcases Nat.eq_zero_or_pos (numChunks a) with h0 | hpos
    · rw [clean_data_zero_chunks env a hC0 h0] at hout
      obtain rfl := Except.ok.inj hout
      rw [h0]
      rfl
    · obtain ⟨m, hm⟩ : ∃ m, numChunks a = m + 1 := ⟨numChunks a - 1, by omega⟩
      cases hc : env.chat a.model 0 (promptOf a 0) with
      | error e =>
        rw [clean_data_first_error env a e hC0 (by omega) hc] at hout
        exact absurd hout (by simp)
      | ok r =>
        rw [clean_data_first_ok env a r m hC0 hm hc] at hout
        rw [hm]
        have hout2 : (if ((List.range (m + 1)).filterMap (chunkTable env a)).isEmpty = true
            then (Except.ok emptyTable : Except String Table)
            else .ok (concatIgnoreIndex
              ((List.range (m + 1)).filterMap (chunkTable env a))))
          = .ok T := hout
        by_cases hemp :
            ((List.range (m + 1)).filterMap (chunkTable env a)).isEmpty = true
        · rw [if_pos hemp] at hout2
          obtain rfl := Except.ok.inj hout2
          have hnil : (List.range (m + 1)).filterMap (chunkTable env a) = [] := by
            simpa using hemp
          rw [hnil]
          rfl
        · rw [if_neg hemp] at hout2
          exact (Except.ok.inj hout2).symm
  refine ⟨hmain, ?_⟩
  rw [hmain]
  exact concatIgnoreIndex_index _

/-- Witness for C7 on a completing one-chunk run. -/
theorem C7_output_is_ordered_concat_witness :
    (0 < argsOneRow.chunk_size
      ∧ (clean_data envOk argsOneRow).outcome = .ok replyTable)
    ∧ replyTable.index = List.range replyTable.rows.length := by
  refine ⟨⟨by decide, rfl⟩, ?_⟩
  exact (C7_output_is_ordered_concat envOk argsOneRow replyTable (by decide) rfl).2

end MountainModel
